import Mathlib

/-!
Verification of the variant-aware inventory and cart/order engine of the
RoyalShoeShop storefront.

The data model follows the Mongoose schemas as they are populated by the
admin product-creation route and the cart routes; prices are modelled as
exact rationals (JS numbers on the values the store manipulates), stock
quantities as integers.  Stateful routes become pure functions over an
explicit store state; fallible operations return `Except`.
-/

set_option linter.unusedVariables false

/-- A per-size stock entry of a product: `sizes: [{size, quantity}]` in the
schema.  Quantities are integers (the routes build them with `parseInt`). -/
structure SizeEntry where
  size : Int
  quantity : Int
deriving DecidableEq, Repr

/-- A colour variant of a product: `colors: [{name, code, images}]`. -/
structure ColorEntry where
  name : String
  code : String
  images : List String
deriving DecidableEq, Repr

/-- A product document, with the fields the create route
(`router.post('/products/create')`) stores: name, description, price,
optional discountPrice, category, brand, sizes, colors, featured, rating,
reviewsCount.  `pid` stands for the Mongo `_id`.  There is no top-level
`stock` or `quantity` field: stock lives only in the `sizes` array. -/
structure Product where
  pid : Nat
  name : String
  description : String
  price : ℚ
  discountPrice : Option ℚ
  category : String
  brand : String
  sizes : List SizeEntry
  colors : List ColorEntry
  featured : Bool
  rating : ℚ
  reviewsCount : Nat
deriving DecidableEq, Repr

/-- A cart line as pushed by the add-to-cart route
(`router.post('/:id/cart')`): product reference plus a denormalized
snapshot of name, price, discountedPrice and image, the requested size,
color and quantity. -/
structure CartLine where
  product : Nat
  name : String
  price : ℚ
  discountedPrice : Option ℚ
  quantity : Int
  size : Int
  color : String
  image : String
deriving DecidableEq, Repr

/-- A cart document: one owning user and an ordered list of lines. -/
structure Cart where
  user : Nat
  items : List CartLine
deriving DecidableEq, Repr

/-- An order document: owning user, snapshot of the purchased lines, total
amount and the status fields the dashboard queries look at
(`status`, `orderStatus`, `paymentStatus`), plus a numeric creation
timestamp (date arithmetic abstracted to a number). -/
structure PlacedOrder where
  user : Nat
  items : List CartLine
  totalAmount : ℚ
  status : String
  orderStatus : Option String
  paymentStatus : Option String
  createdAt : Nat
deriving DecidableEq, Repr

/-- The mutable store: catalog of products, carts keyed by user, order
history. -/
structure StoreState where
  catalog : List Product
  carts : List Cart
  orders : List PlacedOrder
deriving DecidableEq, Repr

/-- `Product.findById`: first product with the given id. -/
def findProduct (catalog : List Product) (pid : Nat) : Option Product :=
  catalog.find? (fun p => p.pid == pid)

/-- `Cart.findOne({user})`: first cart owned by the given user. -/
def findCart (carts : List Cart) (uid : Nat) : Option Cart :=
  carts.find? (fun c => c.user == uid)

/-- Quantity recorded for a size inside a sizes array (0 if the size has no
entry). -/
def availSizes (entries : List SizeEntry) (sz : Int) : Int :=
  match entries.find? (fun e => e.size == sz) with
  | some e => e.quantity
  | none => 0

/-- `availableStock(id, size)` of the Catalog Store (spec 4.1): the
quantity stored for that size of that product, 0 when absent. -/
def availableStock (catalog : List Product) (pid : Nat) (sz : Int) : Int :=
  match findProduct catalog pid with
  | some p => availSizes p.sizes sz
  | none => 0

/-- Decrement the first entry with the given size by `amt`, leaving the
other entries alone. -/
def decSizes (entries : List SizeEntry) (sz : Int) (amt : Int) : List SizeEntry :=
  match entries with
  | [] => []
  | e :: rest =>
    if e.size == sz then { e with quantity := e.quantity - amt } :: rest
    else e :: decSizes rest sz amt

/-- Apply a size decrement to the first product with the given id. -/
def updateCatalog (catalog : List Product) (pid : Nat) (sz : Int) (amt : Int) :
    List Product :=
  match catalog with
  | [] => []
  | p :: rest =>
    if p.pid == pid then { p with sizes := decSizes p.sizes sz amt } :: rest
    else p :: updateCatalog rest pid sz amt

/-- Diagnostics carried by an `InsufficientStock` failure (spec 7). -/
structure ShortfallInfo where
  pid : Nat
  size : Int
  requested : Int
  available : Int
deriving DecidableEq, Repr

/-- Modelled from the spec: the repository's checkout/stock code
(routes/orders.js, models/Product.js stock helpers) is not under src/, so
`decrementStock(id, size, amount)` is taken from spec 4.1: a conditional
decrement that fails with `InsufficientStock` (no change) when the
requested amount exceeds the available quantity, and otherwise persists
`available - amount`. -/
def decrementStock (catalog : List Product) (pid : Nat) (sz : Int) (amt : Int) :
    Except ShortfallInfo (List Product) :=
  if amt ≤ availableStock catalog pid sz then
    .ok (updateCatalog catalog pid sz amt)
  else
    .error ⟨pid, sz, amt, availableStock catalog pid sz⟩

/-- Every size entry of every product carries a non-negative quantity. -/
def StockNonneg (catalog : List Product) : Prop :=
  ∀ p ∈ catalog, ∀ e ∈ p.sizes, 0 ≤ e.quantity

instance : DecidablePred StockNonneg := fun catalog =>
  inferInstanceAs (Decidable (∀ p ∈ catalog, ∀ e ∈ p.sizes, 0 ≤ e.quantity))

/- ### Stock lemmas (sizes level) -/

theorem availSizes_decSizes_same (entries : List SizeEntry) (sz : Int) (amt : Int)
    (h : 0 < availSizes entries sz) :
    availSizes (decSizes entries sz amt) sz = availSizes entries sz - amt := by
  induction entries with
  | nil => simp [availSizes, List.find?] at h
  | cons e rest ih =>
    by_cases he : e.size == sz
    · simp [availSizes, decSizes, List.find?, he]
    · have h' : 0 < availSizes rest sz := by
        simpa [availSizes, List.find?, he] using h
      simpa [availSizes, decSizes, List.find?, he] using ih h'

theorem availSizes_decSizes_other (entries : List SizeEntry) (sz sz' : Int) (amt : Int)
    (h : sz' ≠ sz) :
    availSizes (decSizes entries sz amt) sz' = availSizes entries sz' := by
  induction entries with
  | nil => simp [decSizes]
  | cons e rest ih =>
    by_cases he : e.size == sz
    · have hsz : e.size = sz := by simpa using he
      have hne : (e.size == sz') = false := by
        simp [hsz]
        exact fun hc => h hc.symm
      simp [availSizes, decSizes, List.find?, he, hne]
    · by_cases he' : e.size == sz'
      · simp [availSizes, decSizes, List.find?, he, he']
      · simpa [availSizes, decSizes, List.find?, he, he'] using ih

theorem decSizes_nonneg (entries : List SizeEntry) (sz : Int) (amt : Int)
    (hle : amt ≤ availSizes entries sz)
    (h : ∀ e ∈ entries, 0 ≤ e.quantity) :
    ∀ e ∈ decSizes entries sz amt, 0 ≤ e.quantity := by
  induction entries with
  | nil => simp [decSizes]
  | cons e rest ih =>
    by_cases he : e.size == sz
    · have hq : availSizes (e :: rest) sz = e.quantity := by
        simp [availSizes, List.find?, he]
      intro x hx
      rw [decSizes] at hx
      simp [he] at hx
      rcases hx with hx | hx
      · subst hx
        simp only
        have := h e (by simp)
        omega
      · exact h x (by simp [hx])
    · intro x hx
      rw [decSizes] at hx
      simp [he] at hx
      rcases hx with hx | hx
      · subst hx; exact h x (by simp)
      · have hle' : amt ≤ availSizes rest sz := by
          simpa [availSizes, List.find?, he] using hle
        exact ih hle' (fun y hy => h y (by simp [hy])) x hx

/- ### Stock lemmas (catalog level) -/

theorem availableStock_update_same (catalog : List Product) (pid : Nat) (sz : Int)
    (amt : Int) (h : 0 < availableStock catalog pid sz) :
    availableStock (updateCatalog catalog pid sz amt) pid sz =
      availableStock catalog pid sz - amt := by
  induction catalog with
  | nil => simp [availableStock, findProduct, List.find?] at h
  | cons p rest ih =>
    by_cases hp : p.pid == pid
    · have h' : 0 < availSizes p.sizes sz := by
        simpa [availableStock, findProduct, List.find?, hp] using h
      simp [availableStock, findProduct, updateCatalog, List.find?, hp]
      simpa [availableStock, findProduct, List.find?, hp] using
        availSizes_decSizes_same p.sizes sz amt h'
    · have h' : 0 < availableStock rest pid sz := by
        simpa [availableStock, findProduct, List.find?, hp] using h
      simpa [availableStock, findProduct, updateCatalog, List.find?, hp] using ih h'

theorem availableStock_update_other (catalog : List Product) (pid pid' : Nat)
    (sz sz' : Int) (amt : Int) (h : pid' ≠ pid ∨ sz' ≠ sz) :
    availableStock (updateCatalog catalog pid sz amt) pid' sz' =
      availableStock catalog pid' sz' := by
  induction catalog with
  | nil => simp [updateCatalog]
  | cons p rest ih =>
    by_cases hp : p.pid == pid
    · rcases h with h | h
      · have hne : (p.pid == pid') = false := by
          have : p.pid = pid := by simpa using hp
          simp [this]
          exact fun hc => h hc.symm
        simp [availableStock, findProduct, updateCatalog, List.find?, hp, hne]
      · by_cases hp' : p.pid == pid'
        · simp [availableStock, findProduct, updateCatalog, List.find?, hp, hp']
          exact availSizes_decSizes_other p.sizes sz sz' amt h
        · simp [availableStock, findProduct, updateCatalog, List.find?, hp, hp']
    · by_cases hp' : p.pid == pid'
      · simp [availableStock, findProduct, updateCatalog, List.find?, hp, hp']
      · simpa [availableStock, findProduct, updateCatalog, List.find?, hp, hp'] using ih

theorem updateCatalog_nonneg (catalog : List Product) (pid : Nat) (sz : Int)
    (amt : Int) (hle : amt ≤ availableStock catalog pid sz)
    (h : StockNonneg catalog) : StockNonneg (updateCatalog catalog pid sz amt) := by
  induction catalog with
  | nil => simpa [updateCatalog] using h
  | cons p rest ih =>
    by_cases hp : p.pid == pid
    · intro q hq
      rw [updateCatalog] at hq
      simp [hp] at hq
      rcases hq with hq | hq
      · subst hq
        intro e he
        simp only at he
        have hle' : amt ≤ availSizes p.sizes sz := by
          simpa [availableStock, findProduct, List.find?, hp] using hle
        exact decSizes_nonneg p.sizes sz amt hle' (h p (by simp)) e he
      · exact h q (by simp [hq])
    · intro q hq
      rw [updateCatalog] at hq
      simp [hp] at hq
      rcases hq with hq | hq
      · subst hq; exact h q (by simp)
      · have hle' : amt ≤ availableStock rest pid sz := by
          simpa [availableStock, findProduct, List.find?, hp] using hle
        exact ih hle' (fun y hy => h y (by simp [hy])) q hq

/- ### Pricing -/

/-- Modelled from the spec: the Pricing Resolver (spec 4.2) has no separate
function in the routes under src/; `effectivePrice(product)` returns the
discount price when it is present and numerically valid (non-negative,
non-null), else the base price. -/
def effectivePrice (p : Product) : ℚ :=
  match p.discountPrice with
  | some d => if 0 ≤ d then d else p.price
  | none => p.price

/-- Modelled from the spec: the cart view code (routes/cart.js) is not
under src/; per spec 3, a line's unit price is its snapshot discounted
price when present and valid, else its snapshot base price. -/
def lineUnitPrice (l : CartLine) : ℚ :=
  match l.discountedPrice with
  | some d => if 0 ≤ d then d else l.price
  | none => l.price

/-- Modelled from the spec: cart total = sum of line subtotals, each
subtotal = snapshot unit price x quantity (spec 3). -/
def cartTotal (items : List CartLine) : ℚ :=
  (items.map (fun l => lineUnitPrice l * (l.quantity : ℚ))).sum

/- ### Checkout Reconciler -/

/-- Typed checkout failures (spec 4.4 / 7). -/
inductive CheckoutError where
  | emptyCart : CheckoutError
  | insufficientStock : ShortfallInfo → CheckoutError
deriving DecidableEq, Repr

/-- First cart line whose requested quantity exceeds the catalog's current
stock for its (product, size), in cart order (checkout step 2). -/
def firstShortfall (catalog : List Product) : List CartLine → Option CartLine
  | [] => none
  | l :: rest =>
    if availableStock catalog l.product l.size < l.quantity then some l
    else firstShortfall catalog rest

/-- Decrement stock for every line in cart order (checkout step 3), via
the Catalog Store's `decrementStock`; the first failure aborts. -/
def applyDecrements (catalog : List Product) :
    List CartLine → Except ShortfallInfo (List Product)
  | [] => .ok catalog
  | l :: rest =>
    match decrementStock catalog l.product l.size l.quantity with
    | .error e => .error e
    | .ok catalog' => applyDecrements catalog' rest

/-- Empty the given user's cart, keeping the cart document. -/
def clearCart (carts : List Cart) (uid : Nat) : List Cart :=
  carts.map (fun c => if c.user == uid then { c with items := [] } else c)

/-- Modelled from the spec: the checkout route (routes/orders.js) is not
under src/, so `checkout(userId)` follows spec 4.4: load the cart (no
lines means `EmptyCart`); re-verify every line against current stock and
abort whole with `InsufficientStock` on the first shortfall; otherwise
decrement stock for every line, emit an order snapshotting the lines and
the cart total, and clear the cart.  Being a pure function, a failure
returns the input state unchanged, which realises the all-or-nothing
promise. -/
def checkout (s : StoreState) (uid : Nat) :
    StoreState × Except CheckoutError PlacedOrder :=
  match findCart s.carts uid with
  | none => (s, .error .emptyCart)
  | some cart =>
    if cart.items.isEmpty then (s, .error .emptyCart)
    else
      match firstShortfall s.catalog cart.items with
      | some l =>
        (s, .error (.insufficientStock
          ⟨l.product, l.size, l.quantity, availableStock s.catalog l.product l.size⟩))
      | none =>
        match applyDecrements s.catalog cart.items with
        | .error e => (s, .error (.insufficientStock e))
        | .ok catalog' =>
          let order : PlacedOrder :=
            { user := uid, items := cart.items, totalAmount := cartTotal cart.items,
              status := "pending", orderStatus := none, paymentStatus := none,
              createdAt := 0 }
          ({ catalog := catalog', carts := clearCart s.carts uid,
             orders := s.orders ++ [order] }, .ok order)

/- ### C2: decrementStock never drives stock negative -/

/-- C2: for every catalog, product, size and (positive) amount:
when the amount is at most the available quantity, `decrementStock`
succeeds and the new quantity is available minus amount while untouched
(product, size) pairs keep their stock and non-negativity of all stored
quantities is preserved; when the amount exceeds the available quantity it
fails with `InsufficientStock` carrying the request and, being pure,
yields no new catalog (no partial decrement).  Checkout, the one cart-side
mutator of stock, also preserves non-negativity. -/
theorem decrementStock_safe (catalog : List Product) (pid : Nat) (sz : Int)
    (amt : Int) (hamt : 1 ≤ amt) :
    (amt ≤ availableStock catalog pid sz →
      ∃ catalog', decrementStock catalog pid sz amt = .ok catalog' ∧
        availableStock catalog' pid sz = availableStock catalog pid sz - amt ∧
        (∀ pid' sz', pid' ≠ pid ∨ sz' ≠ sz →
          availableStock catalog' pid' sz' = availableStock catalog pid' sz') ∧
        (StockNonneg catalog → StockNonneg catalog')) ∧
    (availableStock catalog pid sz < amt →
      decrementStock catalog pid sz amt =
        .error ⟨pid, sz, amt, availableStock catalog pid sz⟩) ∧
    (∀ s : StoreState, ∀ uid : Nat, StockNonneg s.catalog →
      StockNonneg (checkout s uid).1.catalog) := by
  refine ⟨?_, ?_, ?_⟩
  · intro hle
    refine ⟨updateCatalog catalog pid sz amt, ?_, ?_, ?_, ?_⟩
    · simp [decrementStock, hle]
    · exact availableStock_update_same catalog pid sz amt (by omega)
    · intro pid' sz' h
      exact availableStock_update_other catalog pid pid' sz sz' amt h
    · intro h
      exact updateCatalog_nonneg catalog pid sz amt hle h
  · intro hlt
    simp [decrementStock]
    omega
  · intro s uid hnn
    have happly : ∀ (items : List CartLine) (cat : List Product),
        StockNonneg cat →
        ∀ cat', applyDecrements cat items = .ok cat' → StockNonneg cat' := by
      intro items
      induction items with
      | nil =>
        intro cat h cat' hok
        simp [applyDecrements] at hok
        exact hok ▸ h
      | cons l rest ih =>
        intro cat h cat' hok
        rw [applyDecrements] at hok
        by_cases hle : l.quantity ≤ availableStock cat l.product l.size
        · rw [decrementStock, if_pos hle] at hok
          exact ih (updateCatalog cat l.product l.size l.quantity)
            (updateCatalog_nonneg cat l.product l.size l.quantity hle h) cat' hok
        · rw [decrementStock, if_neg hle] at hok
          simp at hok
    rw [checkout]
    cases hfc : findCart s.carts uid with
    | none => exact hnn
    | some cart =>
      by_cases hemp : cart.items.isEmpty
      · simp [hemp]; exact hnn
      · simp only [hemp]
        cases hfs : firstShortfall s.catalog cart.items with
        | some l => simp; exact hnn
        | none =>
          cases had : applyDecrements s.catalog cart.items with
          | error e => simp; exact hnn
          | ok catalog' =>
            simp
            exact happly cart.items s.catalog hnn catalog' had

/-- Witness for `decrementStock_safe` at a concrete catalog: one product
(id 1) with size 9 at quantity 3, decremented by 2. -/
theorem decrementStock_safe_witness :
    (1 : Int) ≤ 2 ∧
    ((2 : Int) ≤ availableStock [⟨1, "A", "d", 10, none, "c", "b",
        [⟨9, 3⟩], [], false, 0, 0⟩] 1 9 →
      ∃ catalog', decrementStock [⟨1, "A", "d", 10, none, "c", "b",
        [⟨9, 3⟩], [], false, 0, 0⟩] 1 9 2 = .ok catalog' ∧
        availableStock catalog' 1 9 =
          availableStock [⟨1, "A", "d", 10, none, "c", "b",
            [⟨9, 3⟩], [], false, 0, 0⟩] 1 9 - 2 ∧
        (∀ pid' sz', pid' ≠ 1 ∨ sz' ≠ 9 →
          availableStock catalog' pid' sz' =
            availableStock [⟨1, "A", "d", 10, none, "c", "b",
              [⟨9, 3⟩], [], false, 0, 0⟩] pid' sz') ∧
        (StockNonneg [⟨1, "A", "d", 10, none, "c", "b",
            [⟨9, 3⟩], [], false, 0, 0⟩] → StockNonneg catalog')) := by
  refine ⟨by decide, ?_⟩
  exact (decrementStock_safe [⟨1, "A", "d", 10, none, "c", "b",
    [⟨9, 3⟩], [], false, 0, 0⟩] 1 9 2 (by decide)).1

/- ### Checkout lemmas -/

theorem firstShortfall_eq_none (catalog : List Product) (items : List CartLine)
    (h : ∀ l ∈ items, l.quantity ≤ availableStock catalog l.product l.size) :
    firstShortfall catalog items = none := by
  induction items with
  | nil => rfl
  | cons l rest ih =>
    have hl := h l (by simp)
    rw [firstShortfall, if_neg (by omega)]
    exact ih (fun x hx => h x (by simp [hx]))

theorem firstShortfall_exists (catalog : List Product) :
    ∀ items : List CartLine,
    (∃ l ∈ items, availableStock catalog l.product l.size < l.quantity) →
    ∃ l', firstShortfall catalog items = some l' := by
  intro items
  induction items with
  | nil => rintro ⟨l, hl, _⟩; simp at hl
  | cons l rest ih =>
    rintro ⟨l₀, hl₀, hshort⟩
    by_cases hc : availableStock catalog l.product l.size < l.quantity
    · exact ⟨l, by rw [firstShortfall, if_pos hc]⟩
    · rcases List.mem_cons.mp hl₀ with rfl | hmem
      · exact absurd hshort hc
      · obtain ⟨l', hl'⟩ := ih ⟨l₀, hmem, hshort⟩
        exact ⟨l', by rw [firstShortfall, if_neg hc]; exact hl'⟩

/-- Success of the decrement fold: with pairwise-distinct (product, size)
pairs, positive quantities, and every line within current stock, all
decrements go through and each line's stock drops by exactly its
quantity while untouched pairs keep their stock. -/
theorem applyDecrements_ok :
    ∀ (items : List CartLine) (cat : List Product),
    items.Pairwise (fun a b => a.product ≠ b.product ∨ a.size ≠ b.size) →
    (∀ l ∈ items, 1 ≤ l.quantity) →
    (∀ l ∈ items, l.quantity ≤ availableStock cat l.product l.size) →
    ∃ cat', applyDecrements cat items = .ok cat' ∧
      (∀ l ∈ items, availableStock cat' l.product l.size =
        availableStock cat l.product l.size - l.quantity) ∧
      (∀ pid sz, (∀ l ∈ items, l.product ≠ pid ∨ l.size ≠ sz) →
        availableStock cat' pid sz = availableStock cat pid sz) := by
  intro items
  induction items with
  | nil =>
    intro cat _ _ _
    exact ⟨cat, rfl, by simp, fun pid sz _ => rfl⟩
  | cons l rest ih =>
    intro cat hpw hq hs
    have hpw' := (List.pairwise_cons.mp hpw)
    have hle : l.quantity ≤ availableStock cat l.product l.size := hs l (by simp)
    have hq1 : 1 ≤ l.quantity := hq l (by simp)
    set cat₁ := updateCatalog cat l.product l.size l.quantity with hcat₁
    have hdec : decrementStock cat l.product l.size l.quantity = .ok cat₁ := by
      rw [decrementStock, if_pos hle]
    have hframe₁ : ∀ l' ∈ rest, availableStock cat₁ l'.product l'.size =
        availableStock cat l'.product l'.size := by
      intro l' hl'
      have hne := hpw'.1 l' hl'
      apply availableStock_update_other
      rcases hne with h | h
      · exact Or.inl h.symm
      · exact Or.inr h.symm
    obtain ⟨cat', hok, hdrop, hframe⟩ := ih cat₁ hpw'.2
      (fun x hx => hq x (by simp [hx]))
      (fun x hx => (hframe₁ x hx) ▸ hs x (by simp [hx]))
    refine ⟨cat', ?_, ?_, ?_⟩
    · rw [applyDecrements, hdec]; exact hok
    · intro x hx
      rcases List.mem_cons.mp hx with rfl | hmem
      · have hrest : availableStock cat' x.product x.size =
            availableStock cat₁ x.product x.size := by
          apply hframe
          intro l' hl'
          have hne := hpw'.1 l' hl'
          rcases hne with h | h
          · exact Or.inl h.symm
          · exact Or.inr h.symm
        rw [hrest, hcat₁]
        exact availableStock_update_same cat x.product x.size x.quantity (by omega)
      · rw [hdrop x hmem, hframe₁ x hmem]
    · intro pid sz hall
      rw [hframe pid sz (fun x hx => hall x (by simp [hx])), hcat₁]
      apply availableStock_update_other
      rcases hall l (by simp) with h | h
      · exact Or.inl h.symm
      · exact Or.inr h.symm

theorem findCart_clearCart (carts : List Cart) (uid : Nat) :
    findCart (clearCart carts uid) uid =
      (findCart carts uid).map (fun c => { c with items := [] }) := by
  induction carts with
  | nil => rfl
  | cons c rest ih =>
    by_cases hc : c.user == uid
    · have hu : c.user = uid := by simpa using hc
      simp [findCart, clearCart, List.find?, hc, hu]
    · simpa [findCart, clearCart, List.find?, hc] using ih

/- ### C1: checkout is all-or-nothing -/

/-- C1 (amended): for a user with a non-empty cart whose lines carry
pairwise-distinct (product, size) pairs, if every line's quantity is at
most the current stock for its (product, size), checkout succeeds,
decrements each line's (product, size) stock by exactly its quantity
(leaving untouched pairs unchanged), appends exactly one order and
empties the cart; and if any line's quantity exceeds current stock,
checkout fails with `InsufficientStock` and returns the state completely
unchanged (no partial decrement, no order). -/
theorem checkout_all_or_nothing (s : StoreState) (uid : Nat) (cart : Cart)
    (hfc : findCart s.carts uid = some cart) (hne : cart.items ≠ []) :
    ((cart.items.Pairwise (fun a b => a.product ≠ b.product ∨ a.size ≠ b.size)) →
      (∀ l ∈ cart.items, 1 ≤ l.quantity) →
      (∀ l ∈ cart.items, l.quantity ≤ availableStock s.catalog l.product l.size) →
      ∃ s' order, checkout s uid = (s', .ok order) ∧
        (∀ l ∈ cart.items, availableStock s'.catalog l.product l.size =
          availableStock s.catalog l.product l.size - l.quantity) ∧
        (∀ pid sz, (∀ l ∈ cart.items, l.product ≠ pid ∨ l.size ≠ sz) →
          availableStock s'.catalog pid sz = availableStock s.catalog pid sz) ∧
        findCart s'.carts uid = some { cart with items := [] } ∧
        s'.orders = s.orders ++ [order]) ∧
    ((∃ l ∈ cart.items, availableStock s.catalog l.product l.size < l.quantity) →
      ∃ info, checkout s uid = (s, .error (.insufficientStock info))) := by
  have hemp : cart.items.isEmpty = false := by
    cases h : cart.items with
    | nil => exact absurd h hne
    | cons a t => rfl
  constructor
  · intro hpw hq hs
    have hshort : firstShortfall s.catalog cart.items = none :=
      firstShortfall_eq_none s.catalog cart.items hs
    obtain ⟨cat', hok, hdrop, hframe⟩ := applyDecrements_ok cart.items s.catalog hpw hq hs
    refine ⟨⟨cat', clearCart s.carts uid,
        s.orders ++ [⟨uid, cart.items, cartTotal cart.items, "pending", none, none, 0⟩]⟩,
      ⟨uid, cart.items, cartTotal cart.items, "pending", none, none, 0⟩,
      ?_, ?_, ?_, ?_, ?_⟩
    · rw [checkout, hfc]
      simp only [hemp, Bool.false_eq_true, if_false, hshort, hok]
    · exact hdrop
    · exact hframe
    · rw [findCart_clearCart, hfc]; rfl
    · rfl
  · intro hex
    obtain ⟨l', hl'⟩ := firstShortfall_exists s.catalog cart.items hex
    refine ⟨⟨l'.product, l'.size, l'.quantity,
      availableStock s.catalog l'.product l'.size⟩, ?_⟩
    rw [checkout, hfc]
    simp only [hemp, Bool.false_eq_true, if_false, hl']

/-- Witness for `checkout_all_or_nothing`: a store with product 1 carrying
size 9 at quantity 5, and user 7's cart holding one line of 2 units. -/
theorem checkout_all_or_nothing_witness :
    (findCart [⟨7, [⟨1, "P", 100, none, 2, 9, "Black", "i"⟩]⟩] 7 =
      some ⟨7, [⟨1, "P", 100, none, 2, 9, "Black", "i"⟩]⟩) ∧
    (([⟨1, "P", 100, none, 2, 9, "Black", "i"⟩] : List CartLine) ≠ []) ∧
    (∃ s' order,
      checkout ⟨[⟨1, "P", "d", 100, none, "c", "b", [⟨9, 5⟩], [], false, 0, 0⟩],
        [⟨7, [⟨1, "P", 100, none, 2, 9, "Black", "i"⟩]⟩], []⟩ 7 = (s', .ok order) ∧
      availableStock s'.catalog 1 9 = 3 ∧
      findCart s'.carts 7 = some ⟨7, []⟩ ∧
      s'.orders.length = 1) := by
  refine ⟨by decide, by decide, ?_⟩
  obtain ⟨s', order, hrun, hdrop, _, hcart, hord⟩ :=
    (checkout_all_or_nothing
      ⟨[⟨1, "P", "d", 100, none, "c", "b", [⟨9, 5⟩], [], false, 0, 0⟩],
        [⟨7, [⟨1, "P", 100, none, 2, 9, "Black", "i"⟩]⟩], []⟩ 7
      ⟨7, [⟨1, "P", 100, none, 2, 9, "Black", "i"⟩]⟩
      (by decide) (by decide)).1
    (by decide) (by decide) (by decide)
  refine ⟨s', order, hrun, ?_, hcart, by rw [hord]; rfl⟩
  have := hdrop ⟨1, "P", 100, none, 2, 9, "Black", "i"⟩ (by decide)
  simpa using this

/-- State used by the C1 counterexample: product 1 has 3 units of size 9;
user 7's cart holds two lines of 2 units each for (product 1, size 9) in
colours Black and White — distinct cart keys, same stock pool. -/
def dupPairState : StoreState :=
  ⟨[⟨1, "P", "d", 100, none, "c", "b", [⟨9, 3⟩], [], false, 0, 0⟩],
   [⟨7, [⟨1, "P", 100, none, 2, 9, "Black", "i"⟩,
         ⟨1, "P", 100, none, 2, 9, "White", "i"⟩]⟩], []⟩

/-- C1 counterexample: in `dupPairState` every cart line's quantity (2) is
at most the current stock of its (product, size) (3), yet checkout does
NOT succeed — the two lines share a stock pool and jointly demand 4 > 3 —
refuting the claim that per-line sufficiency implies success. -/
theorem checkout_per_line_check_counterexample :
    (∀ l ∈ (⟨7, [⟨1, "P", 100, none, 2, 9, "Black", "i"⟩,
         ⟨1, "P", 100, none, 2, 9, "White", "i"⟩]⟩ : Cart).items,
      l.quantity ≤ availableStock dupPairState.catalog l.product l.size) ∧
    findCart dupPairState.carts 7 =
      some ⟨7, [⟨1, "P", 100, none, 2, 9, "Black", "i"⟩,
         ⟨1, "P", 100, none, 2, 9, "White", "i"⟩]⟩ ∧
    availableStock dupPairState.catalog 1 9 = 3 ∧
    (checkout dupPairState 7).2.isOk = false := by
  refine ⟨by decide, by decide, by decide, by decide⟩

/- ### Cart Engine (router.post('/:id/cart'), router.get('/cart/count')) -/

/-- The merge key test of the add-to-cart route: same product reference,
same size, same color. -/
def keyMatches (l : CartLine) (pid : Nat) (sz : Int) (color : String) : Bool :=
  l.product == pid && l.size == sz && l.color == color

/-- The new cart line the add-to-cart route pushes: product reference plus
the snapshot of name, price, discountPrice and first image
(`product.colors[0]?.images?.[0] || '/images/default-product.jpg'`; the
products stored by the create route keep images only under colors, so the
route's middle `product.images?.[0]` fallback never applies). -/
def freshLine (p : Product) (sz : Int) (color : String) (q : Int) : CartLine :=
  { product := p.pid, name := p.name, price := p.price,
    discountedPrice := p.discountPrice, quantity := q, size := sz, color := color,
    image := ((p.colors.head?.bind (fun c => c.images.head?)).getD
      "/images/default-product.jpg") }

/-- The route's merge step: bump the quantity of the first line with the
same (product, size, color) key, or push a new line at the end. -/
def bumpOrAppend (p : Product) (sz : Int) (color : String) (q : Int) :
    List CartLine → List CartLine
  | [] => [freshLine p sz color q]
  | l :: rest =>
    if keyMatches l p.pid sz color then { l with quantity := l.quantity + q } :: rest
    else l :: bumpOrAppend p sz color q rest

/-- Persist a cart's new items for a user: replace the user's existing
cart document, or create one (the route's find-or-create plus save). -/
def saveCart : List Cart → Nat → List CartLine → List Cart
  | [], uid, items => [⟨uid, items⟩]
  | c :: rest, uid, items =>
    if c.user == uid then ⟨uid, items⟩ :: rest else c :: saveCart rest uid items

/-- The route's `cartCount` reduce: sum of quantities starting at 0. -/
def countQuantity (items : List CartLine) : Int :=
  items.foldl (fun acc l => acc + l.quantity) 0

/-- `addItem` as implemented by `router.post('/:id/cart')`: look the
product up (404 when absent), find or create the user's cart, merge by
(product, size, color) key or push a fresh snapshot line, save, and
return the updated state together with the recomputed cart count. -/
def addItem (s : StoreState) (uid pid : Nat) (sz : Int) (color : String)
    (q : Int) : Except String (StoreState × Int) :=
  match findProduct s.catalog pid with
  | none => .error "Product not found"
  | some p =>
    let cart := (findCart s.carts uid).getD ⟨uid, []⟩
    let items' := bumpOrAppend p sz color q cart.items
    .ok ({ s with carts := saveCart s.carts uid items' }, countQuantity items')

/-- The user's current cart lines (empty for a user with no cart). -/
def itemsOfUser (s : StoreState) (uid : Nat) : List CartLine :=
  ((findCart s.carts uid).getD ⟨uid, []⟩).items

/-- `router.get('/cart/count')`: 0 when no user is logged in, else the
quantity sum of the user's cart, 0 when the user has no cart. -/
def cartCountRoute (carts : List Cart) (userOpt : Option Nat) : Int :=
  match userOpt with
  | none => 0
  | some uid =>
    match findCart carts uid with
    | some cart => cart.items.foldl (fun acc l => acc + l.quantity) 0
    | none => 0

/- ### Cart lemmas -/

theorem foldl_quantity (items : List CartLine) (a : Int) :
    items.foldl (fun acc l => acc + l.quantity) a =
      a + (items.map (fun l => l.quantity)).sum := by
  induction items generalizing a with
  | nil => simp
  | cons l rest ih =>
    simp only [List.foldl_cons, List.map_cons, List.sum_cons, ih]
    ring

theorem findCart_saveCart (carts : List Cart) (uid : Nat) (items : List CartLine) :
    findCart (saveCart carts uid items) uid = some ⟨uid, items⟩ := by
  induction carts with
  | nil => simp [saveCart, findCart, List.find?]
  | cons c rest ih =>
    by_cases hc : c.user == uid
    · simp [saveCart, findCart, List.find?, hc]
    · simpa [saveCart, findCart, List.find?, hc] using ih

theorem bumpOrAppend_not_mem (p : Product) (sz : Int) (color : String) (q : Int)
    (items : List CartLine)
    (h : ∀ l ∈ items, keyMatches l p.pid sz color = false) :
    bumpOrAppend p sz color q items = items ++ [freshLine p sz color q] := by
  induction items with
  | nil => rfl
  | cons l rest ih =>
    rw [bumpOrAppend, if_neg (by simp [h l (by simp)])]
    rw [ih (fun x hx => h x (by simp [hx]))]
    rfl

theorem keyMatches_freshLine (p : Product) (sz : Int) (color : String) (q : Int) :
    keyMatches (freshLine p sz color q) p.pid sz color = true := by
  simp [keyMatches, freshLine]

theorem bumpOrAppend_through (p : Product) (sz : Int) (color : String) (q : Int)
    (items : List CartLine) (x : CartLine) (tail : List CartLine)
    (h : ∀ l ∈ items, keyMatches l p.pid sz color = false)
    (hx : keyMatches x p.pid sz color = true) :
    bumpOrAppend p sz color q (items ++ x :: tail) =
      items ++ { x with quantity := x.quantity + q } :: tail := by
  induction items with
  | nil => simp [bumpOrAppend, hx]
  | cons l rest ih =>
    rw [List.cons_append, bumpOrAppend, if_neg (by simp [h l (by simp)])]
    rw [ih (fun y hy => h y (by simp [hy]))]
    rfl

theorem filter_key_single (pid : Nat) (sz : Int) (color : String)
    (items : List CartLine) (y : CartLine)
    (h : ∀ l ∈ items, keyMatches l pid sz color = false)
    (hy : keyMatches y pid sz color = true) :
    (items ++ [y]).filter (fun l => keyMatches l pid sz color) = [y] := by
  induction items with
  | nil => simp [List.filter, hy]
  | cons l rest ih =>
    rw [List.cons_append, List.filter_cons_of_neg (by simp [h l (by simp)])]
    exact ih (fun x hx => h x (by simp [hx]))

/- ### C3: same-key adds merge into one line -/

/-- C3: for any user, product, size, color and quantities q1, q2 ≥ 1,
starting from a cart with no line for that (product, size, color) key:
the first add appends a single fresh line (new keys append), and the
second add with the same key leaves exactly one line for the key, with
quantity q1 + q2 — and the cart grew by exactly one line, not two. -/
theorem addItem_merges_same_key (s : StoreState) (uid pid : Nat) (sz : Int)
    (color : String) (q1 q2 : Int) (p : Product)
    (hp : findProduct s.catalog pid = some p)
    (hq1 : 1 ≤ q1) (hq2 : 1 ≤ q2)
    (hkey : ∀ l ∈ itemsOfUser s uid, keyMatches l p.pid sz color = false) :
    ∃ s₁ n₁ s₂ n₂,
      addItem s uid pid sz color q1 = .ok (s₁, n₁) ∧
      itemsOfUser s₁ uid = itemsOfUser s uid ++ [freshLine p sz color q1] ∧
      addItem s₁ uid pid sz color q2 = .ok (s₂, n₂) ∧
      itemsOfUser s₂ uid = itemsOfUser s uid ++ [freshLine p sz color (q1 + q2)] ∧
      (itemsOfUser s₂ uid).filter (fun l => keyMatches l p.pid sz color) =
        [freshLine p sz color (q1 + q2)] ∧
      (itemsOfUser s₂ uid).length = (itemsOfUser s uid).length + 1 := by
  have hb1 : bumpOrAppend p sz color q1 ((findCart s.carts uid).getD ⟨uid, []⟩).items =
      itemsOfUser s uid ++ [freshLine p sz color q1] :=
    bumpOrAppend_not_mem p sz color q1 _ hkey
  have hfresh : ({ freshLine p sz color q1 with
      quantity := (freshLine p sz color q1).quantity + q2 }) =
      freshLine p sz color (q1 + q2) := by
    simp [freshLine]
  have hb2 : bumpOrAppend p sz color q2
      ((findCart (saveCart s.carts uid
        (itemsOfUser s uid ++ [freshLine p sz color q1])) uid).getD ⟨uid, []⟩).items =
      itemsOfUser s uid ++ [freshLine p sz color (q1 + q2)] := by
    rw [findCart_saveCart, Option.getD_some]
    rw [bumpOrAppend_through p sz color q2 (itemsOfUser s uid)
      (freshLine p sz color q1) [] hkey (keyMatches_freshLine p sz color q1)]
    rw [hfresh]
  have hadd1 : addItem s uid pid sz color q1 =
      .ok (⟨s.catalog,
        saveCart s.carts uid (itemsOfUser s uid ++ [freshLine p sz color q1]),
        s.orders⟩,
        countQuantity (itemsOfUser s uid ++ [freshLine p sz color q1])) := by
    simp only [addItem, hp, hb1]
  have hadd2 : addItem (⟨s.catalog,
        saveCart s.carts uid (itemsOfUser s uid ++ [freshLine p sz color q1]),
        s.orders⟩ : StoreState) uid pid sz color q2 =
      .ok (⟨s.catalog,
        saveCart (saveCart s.carts uid (itemsOfUser s uid ++ [freshLine p sz color q1]))
          uid (itemsOfUser s uid ++ [freshLine p sz color (q1 + q2)]),
        s.orders⟩,
        countQuantity (itemsOfUser s uid ++ [freshLine p sz color (q1 + q2)])) := by
    simp only [addItem, hp, hb2]
  refine ⟨_, _, _, _, hadd1, ?_, hadd2, ?_, ?_, ?_⟩
  · simp only [itemsOfUser, findCart_saveCart, Option.getD_some]
  · simp only [itemsOfUser, findCart_saveCart, Option.getD_some]
  · simp only [itemsOfUser, findCart_saveCart, Option.getD_some]
    exact filter_key_single p.pid sz color _ _ hkey (keyMatches_freshLine p sz color _)
  · simp only [itemsOfUser, findCart_saveCart, Option.getD_some]
    simp

/-- Witness for `addItem_merges_same_key`: user 7 adds 2 then 3 units of
(product 1, size 9, Black) starting from no cart. -/
theorem addItem_merges_same_key_witness :
    ∃ s₁ n₁ s₂ n₂,
      addItem ⟨[⟨1, "P", "d", 100, none, "c", "b", [⟨9, 9⟩], [], false, 0, 0⟩], [], []⟩
        7 1 9 "Black" 2 = .ok (s₁, n₁) ∧
      itemsOfUser s₁ 7 = itemsOfUser ⟨[⟨1, "P", "d", 100, none, "c", "b",
        [⟨9, 9⟩], [], false, 0, 0⟩], [], []⟩ 7 ++
        [freshLine ⟨1, "P", "d", 100, none, "c", "b", [⟨9, 9⟩], [], false, 0, 0⟩
          9 "Black" 2] ∧
      addItem s₁ 7 1 9 "Black" 3 = .ok (s₂, n₂) ∧
      itemsOfUser s₂ 7 = itemsOfUser ⟨[⟨1, "P", "d", 100, none, "c", "b",
        [⟨9, 9⟩], [], false, 0, 0⟩], [], []⟩ 7 ++
        [freshLine ⟨1, "P", "d", 100, none, "c", "b", [⟨9, 9⟩], [], false, 0, 0⟩
          9 "Black" (2 + 3)] ∧
      (itemsOfUser s₂ 7).filter (fun l => keyMatches l
        (⟨1, "P", "d", 100, none, "c", "b", [⟨9, 9⟩], [], false, 0, 0⟩ : Product).pid
        9 "Black") =
        [freshLine ⟨1, "P", "d", 100, none, "c", "b", [⟨9, 9⟩], [], false, 0, 0⟩
          9 "Black" (2 + 3)] ∧
      (itemsOfUser s₂ 7).length = (itemsOfUser ⟨[⟨1, "P", "d", 100, none, "c", "b",
        [⟨9, 9⟩], [], false, 0, 0⟩], [], []⟩ 7).length + 1 :=
  addItem_merges_same_key
    ⟨[⟨1, "P", "d", 100, none, "c", "b", [⟨9, 9⟩], [], false, 0, 0⟩], [], []⟩
    7 1 9 "Black" 2 3
    ⟨1, "P", "d", 100, none, "c", "b", [⟨9, 9⟩], [], false, 0, 0⟩
    (by decide) (by decide) (by decide) (by decide)

/- ### C4: the snapshot's unit price is the effective price -/

/-- C4: a line freshly appended by `addItem` snapshots the product's base
and discount prices verbatim, so the unit price the snapshot carries —
discounted price when present and valid, else base price (spec 3) —
equals `effectivePrice(product)` at add-time. -/
theorem addItem_snapshot_effectivePrice (s : StoreState) (uid pid : Nat)
    (sz : Int) (color : String) (q : Int) (p : Product)
    (hp : findProduct s.catalog pid = some p)
    (hkey : ∀ l ∈ itemsOfUser s uid, keyMatches l p.pid sz color = false) :
    ∃ s₁ n₁,
      addItem s uid pid sz color q = .ok (s₁, n₁) ∧
      itemsOfUser s₁ uid = itemsOfUser s uid ++ [freshLine p sz color q] ∧
      (freshLine p sz color q).price = p.price ∧
      (freshLine p sz color q).discountedPrice = p.discountPrice ∧
      lineUnitPrice (freshLine p sz color q) = effectivePrice p := by
  have hb1 : bumpOrAppend p sz color q ((findCart s.carts uid).getD ⟨uid, []⟩).items =
      itemsOfUser s uid ++ [freshLine p sz color q] :=
    bumpOrAppend_not_mem p sz color q _ hkey
  refine ⟨⟨s.catalog,
      saveCart s.carts uid (itemsOfUser s uid ++ [freshLine p sz color q]),
      s.orders⟩,
    countQuantity (itemsOfUser s uid ++ [freshLine p sz color q]), ?_, ?_, rfl, rfl, ?_⟩
  · simp only [addItem, hp, hb1]
  · simp only [itemsOfUser, findCart_saveCart, Option.getD_some]
  · simp [lineUnitPrice, effectivePrice, freshLine]

/-- Witness for `addItem_snapshot_effectivePrice`, applied twice: once to
a product with base price 1299 and discount price 899 (unit price 899)
and once to one without a discount price (unit price 1299). -/
theorem addItem_snapshot_effectivePrice_witness :
    (∃ s₁ n₁,
      addItem ⟨[⟨1, "P", "d", 1299, some 899, "c", "b", [⟨9, 9⟩], [], false, 0, 0⟩],
        [], []⟩ 7 1 9 "Black" 1 = .ok (s₁, n₁) ∧
      itemsOfUser s₁ 7 = itemsOfUser ⟨[⟨1, "P", "d", 1299, some 899, "c", "b",
        [⟨9, 9⟩], [], false, 0, 0⟩], [], []⟩ 7 ++
        [freshLine ⟨1, "P", "d", 1299, some 899, "c", "b", [⟨9, 9⟩], [], false, 0, 0⟩
          9 "Black" 1] ∧
      (freshLine ⟨1, "P", "d", 1299, some 899, "c", "b", [⟨9, 9⟩], [], false, 0, 0⟩
        9 "Black" 1).price = 1299 ∧
      (freshLine ⟨1, "P", "d", 1299, some 899, "c", "b", [⟨9, 9⟩], [], false, 0, 0⟩
        9 "Black" 1).discountedPrice = some 899 ∧
      lineUnitPrice (freshLine ⟨1, "P", "d", 1299, some 899, "c", "b",
        [⟨9, 9⟩], [], false, 0, 0⟩ 9 "Black" 1) = 899) ∧
    lineUnitPrice (freshLine ⟨2, "Q", "d", 1299, none, "c", "b",
      [⟨9, 9⟩], [], false, 0, 0⟩ 9 "Black" 1) = 1299 := by
  constructor
  · have h := addItem_snapshot_effectivePrice
      ⟨[⟨1, "P", "d", 1299, some 899, "c", "b", [⟨9, 9⟩], [], false, 0, 0⟩], [], []⟩
      7 1 9 "Black" 1
      ⟨1, "P", "d", 1299, some 899, "c", "b", [⟨9, 9⟩], [], false, 0, 0⟩
      (by decide) (by decide)
    obtain ⟨s₁, n₁, h1, h2, h3, h4, h5⟩ := h
    exact ⟨s₁, n₁, h1, h2, h3, h4, by rw [h5]; decide⟩
  · have h := (addItem_snapshot_effectivePrice
      ⟨[⟨2, "Q", "d", 1299, none, "c", "b", [⟨9, 9⟩], [], false, 0, 0⟩], [], []⟩
      7 2 9 "Black" 1
      ⟨2, "Q", "d", 1299, none, "c", "b", [⟨9, 9⟩], [], false, 0, 0⟩
      (by decide) (by decide))
    obtain ⟨s₁, n₁, h1, h2, h3, h4, h5⟩ := h
    rw [h5]; decide

/- ### C8: cart count -/

/-- C8: `count(userId)` returns the sum of the quantities of the user's
cart lines, and 0 when the user has no cart (the route is total: it
computes the count and never fails; absent carts and absent users both
yield 0). -/
theorem cartCount_route_correct (carts : List Cart) (uid : Nat) :
    (findCart carts uid = none → cartCountRoute carts (some uid) = 0) ∧
    (∀ cart, findCart carts uid = some cart →
      cartCountRoute carts (some uid) =
        (cart.items.map (fun l => l.quantity)).sum) ∧
    cartCountRoute carts none = 0 := by
  refine ⟨?_, ?_, rfl⟩
  · intro h
    simp [cartCountRoute, h]
  · intro cart h
    simp only [cartCountRoute, h]
    simpa using foldl_quantity cart.items 0

/-- Witness for `cartCount_route_correct`: a user with no cart counts 0;
a user whose cart holds quantities 2 and 3 counts 5. -/
theorem cartCount_route_correct_witness :
    (findCart [⟨7, [⟨1, "P", 100, none, 2, 9, "Black", "i"⟩,
        ⟨1, "P", 100, none, 3, 9, "White", "i"⟩]⟩] 8 = none ∧
      cartCountRoute [⟨7, [⟨1, "P", 100, none, 2, 9, "Black", "i"⟩,
        ⟨1, "P", 100, none, 3, 9, "White", "i"⟩]⟩] (some 8) = 0) ∧
    cartCountRoute [⟨7, [⟨1, "P", 100, none, 2, 9, "Black", "i"⟩,
      ⟨1, "P", 100, none, 3, 9, "White", "i"⟩]⟩] (some 7) = 5 := by
  constructor
  · exact ⟨by decide,
      (cartCount_route_correct [⟨7, [⟨1, "P", 100, none, 2, 9, "Black", "i"⟩,
        ⟨1, "P", 100, none, 3, 9, "White", "i"⟩]⟩] 8).1 (by decide)⟩
  · have h := (cartCount_route_correct [⟨7, [⟨1, "P", 100, none, 2, 9, "Black", "i"⟩,
        ⟨1, "P", 100, none, 3, 9, "White", "i"⟩]⟩] 7).2.1
      ⟨7, [⟨1, "P", 100, none, 2, 9, "Black", "i"⟩,
        ⟨1, "P", 100, none, 3, 9, "White", "i"⟩]⟩ (by decide)
    rw [h]; decide

/- ### C9: view totals come from snapshots only -/

/-- Modelled from the spec: the cart view code (routes/cart.js) is not
under src/; per spec 4.3, `view(userId)` returns the cart's lines with
their subtotals and the cart total, all computed from the lines' snapshot
prices.  It receives the whole store state (catalog included) as the
route would, but reads only the carts. -/
def viewCart (s : StoreState) (uid : Nat) : List (CartLine × ℚ) × ℚ :=
  match findCart s.carts uid with
  | none => ([], 0)
  | some cart =>
    (cart.items.map (fun l => (l, lineUnitPrice l * (l.quantity : ℚ))),
      cartTotal cart.items)

/-- The pricing part of the admin edit route (`router.post('/edit/:id')`):
overwrite the product's base price and discount price. -/
def adminEditPricing (s : StoreState) (pid : Nat) (newPrice : ℚ)
    (newDiscount : Option ℚ) : StoreState :=
  { s with catalog := s.catalog.map (fun p =>
      if p.pid == pid then { p with price := newPrice, discountPrice := newDiscount }
      else p) }

/-- C9: the totals `view` returns depend only on the snapshot prices in
the cart lines: an admin price edit (which touches only catalog price
fields) leaves every user's view unchanged, and more generally any two
states with the same carts produce the same view. -/
theorem view_totals_snapshot_stable (s s₂ : StoreState) (uid pid : Nat)
    (newPrice : ℚ) (newDiscount : Option ℚ) (hc : s.carts = s₂.carts) :
    viewCart (adminEditPricing s pid newPrice newDiscount) uid = viewCart s uid ∧
    viewCart s uid = viewCart s₂ uid := by
  constructor
  · rfl
  · simp only [viewCart, hc]

/-- Witness for `view_totals_snapshot_stable`: user 7's cart shows the
same lines and total before and after the admin reprices product 1 from
(1299, discount 899) to (2000, no discount). -/
theorem view_totals_snapshot_stable_witness :
    viewCart (adminEditPricing
      ⟨[⟨1, "P", "d", 1299, some 899, "c", "b", [⟨9, 9⟩], [], false, 0, 0⟩],
        [⟨7, [⟨1, "P", 1299, some 899, 2, 9, "Black", "i"⟩]⟩], []⟩ 1 2000 none) 7 =
      viewCart ⟨[⟨1, "P", "d", 1299, some 899, "c", "b", [⟨9, 9⟩], [], false, 0, 0⟩],
        [⟨7, [⟨1, "P", 1299, some 899, 2, 9, "Black", "i"⟩]⟩], []⟩ 7 ∧
    (viewCart ⟨[⟨1, "P", "d", 1299, some 899, "c", "b", [⟨9, 9⟩], [], false, 0, 0⟩],
        [⟨7, [⟨1, "P", 1299, some 899, 2, 9, "Black", "i"⟩]⟩], []⟩ 7).2 = 1798 :=
  ⟨(view_totals_snapshot_stable
      ⟨[⟨1, "P", "d", 1299, some 899, "c", "b", [⟨9, 9⟩], [], false, 0, 0⟩],
        [⟨7, [⟨1, "P", 1299, some 899, 2, 9, "Black", "i"⟩]⟩], []⟩
      ⟨[⟨1, "P", "d", 1299, some 899, "c", "b", [⟨9, 9⟩], [], false, 0, 0⟩],
        [⟨7, [⟨1, "P", 1299, some 899, 2, 9, "Black", "i"⟩]⟩], []⟩
      7 1 2000 none rfl).1,
    by norm_num [viewCart, findCart, List.find?, cartTotal, lineUnitPrice]⟩

/- ### Statistics Aggregator (getDashboardStats, routes/admin.js) -/

/-- JS `Math.round` on exact rationals: floor of x + 1/2 (ties round up,
as in JS). -/
def jsRound (q : ℚ) : ℤ := ⌊q + 1 / 2⌋

/-- The pending-orders matcher: `{$or: [{status:'pending'},
{orderStatus:'pending'}, {status:'Pending'}]}`. -/
def pendingMatch (o : PlacedOrder) : Bool :=
  o.status == "pending" || o.orderStatus == some "pending" || o.status == "Pending"

/-- `Order.countDocuments` over the pending matcher. -/
def countPendingOrders (orders : List PlacedOrder) : Nat :=
  (orders.filter pendingMatch).length

/-- Numeric top-level fields of a product document as the query engine
resolves them.  The schema keeps stock only inside the `sizes` array, so
the names `stock` and `quantity` resolve to no field. -/
def productNumField (p : Product) (key : String) : Option ℚ :=
  if key == "price" then some p.price
  else if key == "discountPrice" then p.discountPrice
  else if key == "rating" then some p.rating
  else if key == "reviewsCount" then some (p.reviewsCount : ℚ)
  else none

/-- The dashboard's low-stock document test:
`{$or: [{stock: {$lt:10,$gt:0}}, {quantity: {$lt:10,$gt:0}}]}` — a range
query matches only documents that actually carry the field. -/
def lowStockMatch (p : Product) : Bool :=
  (match productNumField p "stock" with
   | some v => decide (0 < v ∧ v < 10)
   | none => false) ||
  (match productNumField p "quantity" with
   | some v => decide (0 < v ∧ v < 10)
   | none => false)

/-- `Product.countDocuments` over the low-stock document test. -/
def lowStockQueryCount (products : List Product) : Nat :=
  (products.filter lowStockMatch).length

/-- Total stock of a product: the sum of all size quantities (spec 3). -/
def totalStock (p : Product) : Int :=
  (p.sizes.map (fun e => e.quantity)).sum

/-- The spec's low-stock count: products whose total stock lies between 1
and the threshold (default 10). -/
def lowStockSpecCount (threshold : Int) (products : List Product) : Nat :=
  (products.filter (fun p => decide (1 ≤ totalStock p ∧ totalStock p ≤ threshold))).length

/-- The revenue matcher: `{$or: [{status:'completed'},
{status:'delivered'}, {paymentStatus:'completed'}]}`. -/
def revenueMatch (o : PlacedOrder) : Bool :=
  o.status == "completed" || o.status == "delivered" ||
    o.paymentStatus == some "completed"

/-- The `$group`/`$sum` aggregate over matched orders: none when no order
matches (empty result array), else the sum of their totalAmount. -/
def revenueAggResult (orders : List PlacedOrder) : Option ℚ :=
  let matched := orders.filter revenueMatch
  if matched.isEmpty then none else some ((matched.map (fun o => o.totalAmount)).sum)

/-- Plain sum of totalAmount over revenue-matched orders. -/
def totalRevenueOf (orders : List PlacedOrder) : ℚ :=
  ((orders.filter revenueMatch).map (fun o => o.totalAmount)).sum

/-- `revenueResult.length > 0 ? (revenueResult[0].total || 0) : 0`, with
the aggregation's own try/catch collapsing a failure to the 0 default. -/
def revenueOrZero (r : Except String (Option ℚ)) : ℚ :=
  match r with
  | .ok (some t) => t
  | .ok none => 0
  | .error _ => 0

/-- Recent-activity list: one "New Order" entry per recent order, with the
welcome placeholder when there is none (only the activity titles are
modelled; the route's description/time strings are presentation
formatting). -/
def activitiesOf (recent : List PlacedOrder) : List String :=
  let base := recent.map (fun _ => "New Order")
  if base.isEmpty then ["Welcome to Admin Panel"] else base

/-- The result record of `getDashboardStats`. -/
structure DashStats where
  totalProducts : Nat
  lowStockItems : Nat
  totalOrders : Nat
  todaysOrders : Nat
  pendingOrders : Nat
  totalRevenue : ℚ
  avgOrderValue : ℚ
  totalUsers : Nat
  newUsersToday : Nat
  productChange : ℚ
  orderChange : ℚ
  userChange : ℚ
  revenueChange : ℚ
  recentActivities : List String
deriving DecidableEq, Repr

/-- The outcomes of the aggregator's independent database reads: the eight
`Promise.all` members, in source order, plus the revenue aggregate. -/
structure SubResults where
  totalProducts : Except String Nat
  totalOrders : Except String Nat
  totalUsers : Except String Nat
  pendingOrders : Except String Nat
  lowStockProducts : Except String Nat
  todaysOrders : Except String Nat
  recentOrders : Except String (List PlacedOrder)
  newUsers : Except String Nat
  revenueAgg : Except String (Option ℚ)

/-- `getDashboardStats` over the read outcomes: `Promise.all` fails the
whole computation on the first failed member (and the outer catch
rethrows); only the revenue aggregate sits in its own try/catch and
degrades to 0.  `userChange` divides by `totalUsers`; with
`totalUsers = 0` JS would produce Infinity where rational division yields
0 — a corner no claim touches. -/
def getDashboardStats (r : SubResults) : Except String DashStats := do
  let totalProducts ← r.totalProducts
  let totalOrders ← r.totalOrders
  let totalUsers ← r.totalUsers
  let pendingOrders ← r.pendingOrders
  let lowStockProducts ← r.lowStockProducts
  let todaysOrders ← r.todaysOrders
  let recentOrders ← r.recentOrders
  let newUsers ← r.newUsers
  let totalRevenue : ℚ := revenueOrZero r.revenueAgg
  let avgOrderValue : ℚ :=
    if 0 < totalOrders ∧ 0 < totalRevenue then
      ((jsRound (totalRevenue / (totalOrders : ℚ))) : ℚ)
    else 0
  .ok { totalProducts := totalProducts, lowStockItems := lowStockProducts,
        totalOrders := totalOrders, todaysOrders := todaysOrders,
        pendingOrders := pendingOrders, totalRevenue := totalRevenue,
        avgOrderValue := avgOrderValue, totalUsers := totalUsers,
        newUsersToday := newUsers, productChange := 12,
        orderChange := if 100 < totalOrders then 8 else 15,
        userChange := if 0 < newUsers then
          ((jsRound ((newUsers : ℚ) / (totalUsers : ℚ) * 100)) : ℚ) else 5,
        revenueChange := 18,
        recentActivities := activitiesOf recentOrders }

/-- The five most recent orders (sorted by creation time, newest first). -/
def recentFive (orders : List PlacedOrder) : List PlacedOrder :=
  (orders.mergeSort (fun a b => b.createdAt ≤ a.createdAt)).take 5

/-- The aggregator's reads evaluated against concrete catalog, order and
user records with no database failure; `startOfToday` abstracts the day
boundary the two date queries compare against. -/
def subResultsOf (products : List Product) (orders : List PlacedOrder)
    (usersCount newUsersToday startOfToday : Nat) : SubResults :=
  { totalProducts := .ok products.length
    totalOrders := .ok orders.length
    totalUsers := .ok usersCount
    pendingOrders := .ok (countPendingOrders orders)
    lowStockProducts := .ok (lowStockQueryCount products)
    todaysOrders := .ok ((orders.filter (fun o => startOfToday ≤ o.createdAt)).length)
    recentOrders := .ok (recentFive orders)
    newUsers := .ok newUsersToday
    revenueAgg := .ok (revenueAggResult orders) }

theorem revenueOrZero_agg (orders : List PlacedOrder) :
    revenueOrZero (.ok (revenueAggResult orders)) = totalRevenueOf orders := by
  cases h : orders.filter revenueMatch with
  | nil => simp [revenueOrZero, revenueAggResult, totalRevenueOf, h]
  | cons a l => simp [revenueOrZero, revenueAggResult, totalRevenueOf, h]

/-- Closed form of the aggregator on failure-free reads. -/
theorem getDashboardStats_pure (products : List Product)
    (orders : List PlacedOrder) (u n t : Nat) :
    getDashboardStats (subResultsOf products orders u n t) = .ok
      ⟨products.length, lowStockQueryCount products, orders.length,
        (orders.filter (fun o => t ≤ o.createdAt)).length,
        countPendingOrders orders,
        totalRevenueOf orders,
        (if 0 < orders.length ∧ 0 < totalRevenueOf orders then
          ((jsRound (totalRevenueOf orders / (orders.length : ℚ))) : ℚ) else 0),
        u, n, 12, (if 100 < orders.length then 8 else 15),
        (if 0 < n then ((jsRound ((n : ℚ) / (u : ℚ) * 100)) : ℚ) else 5), 18,
        activitiesOf (recentFive orders)⟩ := by
  rw [← revenueOrZero_agg orders]
  rfl

/- ### C5: the low-stock statistic -/

/-- A product with 5 units of size 9 and no other stock: total stock 5,
squarely in the 1..10 low-stock band. -/
def lowStockDemoProduct : Product :=
  ⟨1, "P", "d", 100, none, "c", "b", [⟨9, 5⟩], [], false, 0, 0⟩

theorem lowStockMatch_false (p : Product) : lowStockMatch p = false := rfl

/-- C5 fails on the code: the dashboard's low-stock query inspects
top-level `stock`/`quantity` fields that product documents do not carry
(stock lives in the `sizes` array), so `lowStockItems` is 0 on every
catalog — here a catalog whose one product has total stock 5 counts 1
low-stock product under the spec's definition but 0 under the code. -/
theorem lowStockItems_always_zero :
    totalStock lowStockDemoProduct = 5 ∧
    lowStockSpecCount 10 [lowStockDemoProduct] = 1 ∧
    (getDashboardStats (subResultsOf [lowStockDemoProduct] [] 0 0 0)).map
      DashStats.lowStockItems = .ok 0 ∧
    ∀ products : List Product, lowStockQueryCount products = 0 := by
  refine ⟨by decide, by decide, rfl, ?_⟩
  intro products
  induction products with
  | nil => rfl
  | cons p rest ih =>
    simpa [lowStockQueryCount, List.filter_cons, lowStockMatch_false p]
      using ih

/- ### C6: average order value -/

/-- Three completed orders with amounts 3, 3 and 4: revenue 10, count 3. -/
def avgDemoOrders : List PlacedOrder :=
  [⟨7, [], 3, "completed", none, none, 0⟩,
   ⟨7, [], 3, "completed", none, none, 0⟩,
   ⟨7, [], 4, "completed", none, none, 0⟩]

theorem totalRevenueOf_avgDemo : totalRevenueOf avgDemoOrders = 10 := by
  have h : avgDemoOrders.filter revenueMatch = avgDemoOrders := rfl
  unfold totalRevenueOf
  rw [h]
  norm_num [avgDemoOrders]

theorem jsRound_ten_thirds : jsRound ((10 : ℚ) / 3) = 3 := by
  unfold jsRound
  rw [show (10 : ℚ) / 3 + 1 / 2 = 23 / 6 by norm_num]
  rw [Int.floor_eq_iff]
  constructor
  · norm_num
  · norm_num

/-- C6 counterexample: on three completed orders of 3, 3 and 4,
`totalRevenue` is 10 and the dashboard's `avgOrderValue` is 3
(`Math.round(10/3)`), which is not `totalRevenue / totalOrders` = 10/3 —
the claimed exact-division equality fails. -/
theorem avgOrderValue_not_exact_division :
    (getDashboardStats (subResultsOf [] avgDemoOrders 0 0 0)).map
      DashStats.totalRevenue = .ok 10 ∧
    (getDashboardStats (subResultsOf [] avgDemoOrders 0 0 0)).map
      DashStats.avgOrderValue = .ok 3 ∧
    (3 : ℚ) ≠ 10 / 3 := by
  refine ⟨?_, ?_, by norm_num⟩
  · rw [getDashboardStats_pure, totalRevenueOf_avgDemo]
    rfl
  · rw [getDashboardStats_pure]
    simp only [Except.map]
    rw [if_pos ⟨by decide, by rw [totalRevenueOf_avgDemo]; norm_num⟩]
    rw [totalRevenueOf_avgDemo,
      show ((avgDemoOrders.length : ℚ)) = 3 by norm_num [avgDemoOrders],
      jsRound_ten_thirds]
    rfl

/-- C6 (amended): `avgOrderValue` equals `totalRevenue / totalOrders`
rounded to the nearest integer (`Math.round`, ties up) whenever both the
order count and the revenue are positive, and 0 otherwise; in particular
with zero orders both `avgOrderValue` and `totalRevenue` are 0 and no
division is attempted. -/
theorem avgOrderValue_amended (products : List Product)
    (orders : List PlacedOrder) (u n t : Nat) :
    (getDashboardStats (subResultsOf products orders u n t)).map
      DashStats.totalRevenue = .ok (totalRevenueOf orders) ∧
    (getDashboardStats (subResultsOf products orders u n t)).map
      DashStats.avgOrderValue = .ok
        (if 0 < orders.length ∧ 0 < totalRevenueOf orders then
          ((jsRound (totalRevenueOf orders / (orders.length : ℚ))) : ℚ) else 0) ∧
    (getDashboardStats (subResultsOf products [] u n t)).map
      DashStats.avgOrderValue = .ok 0 ∧
    (getDashboardStats (subResultsOf products [] u n t)).map
      DashStats.totalRevenue = .ok 0 := by
  refine ⟨?_, ?_, ?_, ?_⟩
  · rw [getDashboardStats_pure]; rfl
  · rw [getDashboardStats_pure]; rfl
  · rw [getDashboardStats_pure]
    rfl
  · rw [getDashboardStats_pure]; rfl

/- ### C7: partial-failure tolerance of the aggregator -/

/-- Read outcomes where only the pending-orders count fails. -/
def subsPendingFail : SubResults :=
  { totalProducts := .ok 1, totalOrders := .ok 0, totalUsers := .ok 0,
    pendingOrders := .error "db", lowStockProducts := .ok 0,
    todaysOrders := .ok 0, recentOrders := .ok [], newUsers := .ok 0,
    revenueAgg := .ok none }

/-- C7 counterexample: when one non-revenue metric (the pending-orders
count) fails and every other read succeeds, the aggregator does not
substitute a default and return the rest — `Promise.all` rejects and the
whole computation fails, contradicting the claimed per-metric
tolerance. -/
theorem stats_pending_failure_fails_all :
    getDashboardStats subsPendingFail = .error "db" := rfl

/-- C7 (amended): only the revenue aggregation is failure-tolerant: when
it fails but the eight `Promise.all` reads succeed, the aggregator still
returns a stats record with `totalRevenue` defaulted to 0 (hence
`avgOrderValue` 0) and every other field intact; a failure of any of the
eight reads instead fails the whole aggregation (see the
counterexample). -/
theorem stats_revenue_failure_tolerated (r : SubResults)
    (a b c d e f h : Nat) (g : List PlacedOrder) (msg : String)
    (h1 : r.totalProducts = .ok a) (h2 : r.totalOrders = .ok b)
    (h3 : r.totalUsers = .ok c) (h4 : r.pendingOrders = .ok d)
    (h5 : r.lowStockProducts = .ok e) (h6 : r.todaysOrders = .ok f)
    (h7 : r.recentOrders = .ok g) (h8 : r.newUsers = .ok h)
    (h9 : r.revenueAgg = .error msg) :
    ∃ stats, getDashboardStats r = .ok stats ∧
      stats.totalRevenue = 0 ∧ stats.avgOrderValue = 0 ∧
      stats.totalProducts = a ∧ stats.totalOrders = b ∧
      stats.totalUsers = c ∧ stats.pendingOrders = d ∧
      stats.lowStockItems = e ∧ stats.todaysOrders = f ∧
      stats.newUsersToday = h ∧ stats.recentActivities = activitiesOf g := by
  cases r
  simp only at h1 h2 h3 h4 h5 h6 h7 h8 h9
  subst h1; subst h2; subst h3; subst h4; subst h5; subst h6
  subst h7; subst h8; subst h9
  refine ⟨_, rfl, rfl, ?_, rfl, rfl, rfl, rfl, rfl, rfl, rfl, rfl⟩
  simp [revenueOrZero]

/-- Witness for `stats_revenue_failure_tolerated`: a failing revenue
aggregate combined with successful reads of 4 products, 2 orders,
3 users, 1 pending, 0 low-stock, 1 today, no recent orders, 1 new user. -/
theorem stats_revenue_failure_tolerated_witness :
    ∃ stats, getDashboardStats
      ⟨.ok 4, .ok 2, .ok 3, .ok 1, .ok 0, .ok 1, .ok [], .ok 1,
        .error "agg down"⟩ = .ok stats ∧
      stats.totalRevenue = 0 ∧ stats.avgOrderValue = 0 ∧
      stats.totalProducts = 4 ∧ stats.totalOrders = 2 ∧
      stats.totalUsers = 3 ∧ stats.pendingOrders = 1 ∧
      stats.lowStockItems = 0 ∧ stats.todaysOrders = 1 ∧
      stats.newUsersToday = 1 ∧ stats.recentActivities = activitiesOf [] :=
  stats_revenue_failure_tolerated
    ⟨.ok 4, .ok 2, .ok 3, .ok 1, .ok 0, .ok 1, .ok [], .ok 1, .error "agg down"⟩
    4 2 3 1 0 1 1 [] "agg down"
    rfl rfl rfl rfl rfl rfl rfl rfl rfl

/- ### C10: product creation sizes (router.post('/products/create')) -/

/-- The create route's size processing.  `checked` is the normalized
`req.body.sizes` checkbox list (absent or single values become a list);
`qtyVal sz` is the parsed `size_N_quantity` field — `none` when the field
is absent, `some k` when present and parsing to `k` (`parseInt(x) || 0`
turns an unparsable field into 0, i.e. `some 0`).  Checkbox sizes keep
only positive quantities; if that yields nothing, the fallback scans
sizes 6..12 for present positive fields; if still nothing, the default
entry {size: 9, quantity: 10} is used. -/
def processSizes (checked : List Int) (qtyVal : Int → Option Int) :
    List SizeEntry :=
  let fromChecked := checked.filterMap (fun sz =>
    let q := (qtyVal sz).getD 0
    if 0 < q then some ⟨sz, q⟩ else none)
  let withFallback :=
    if fromChecked.isEmpty then
      ([6, 7, 8, 9, 10, 11, 12] : List Int).filterMap (fun sz =>
        match qtyVal sz with
        | some q => if 0 < q then some ⟨sz, q⟩ else none
        | none => none)
    else fromChecked
  if withFallback.isEmpty then [⟨9, 10⟩] else withFallback

/-- The product document the create route saves: validated fields plus
the processed sizes and colours, rating and review count zeroed. -/
def createProduct (pid : Nat) (name description : String) (price : ℚ)
    (discountPrice : Option ℚ) (category brand : String)
    (checked : List Int) (qtyVal : Int → Option Int)
    (colors : List ColorEntry) (featured : Bool) : Product :=
  { pid := pid, name := name, description := description, price := price,
    discountPrice := discountPrice, category := category, brand := brand,
    sizes := processSizes checked qtyVal, colors := colors,
    featured := featured, rating := 0, reviewsCount := 0 }

theorem filterMap_eq_nil_of_none {α β : Type} (f : α → Option β) :
    ∀ l : List α, (∀ a ∈ l, f a = none) → l.filterMap f = [] := by
  intro l h
  induction l with
  | nil => rfl
  | cons a rest ih =>
    rw [List.filterMap_cons, h a (by simp)]
    exact ih (fun x hx => h x (by simp [hx]))

theorem mem_processSizes_pos (checked : List Int) (qtyVal : Int → Option Int) :
    ∀ e ∈ processSizes checked qtyVal, 0 < e.quantity := by
  intro e he
  unfold processSizes at he
  by_cases h2 : (if (checked.filterMap (fun sz =>
      let q := (qtyVal sz).getD 0
      if 0 < q then some (⟨sz, q⟩ : SizeEntry) else none)).isEmpty then
        ([6, 7, 8, 9, 10, 11, 12] : List Int).filterMap (fun sz =>
          match qtyVal sz with
          | some q => if 0 < q then some (⟨sz, q⟩ : SizeEntry) else none
          | none => none)
      else checked.filterMap (fun sz =>
        let q := (qtyVal sz).getD 0
        if 0 < q then some (⟨sz, q⟩ : SizeEntry) else none)).isEmpty
  · rw [if_pos h2] at he
    simp at he
    rw [he]
    decide
  · rw [if_neg h2] at he
    by_cases h1 : (checked.filterMap (fun sz =>
        let q := (qtyVal sz).getD 0
        if 0 < q then some (⟨sz, q⟩ : SizeEntry) else none)).isEmpty
    · rw [if_pos h1] at he
      obtain ⟨sz, hsz, hf⟩ := List.mem_filterMap.mp he
      cases hv : qtyVal sz with
      | none => rw [hv] at hf; exact absurd hf (by simp)
      | some q =>
        rw [hv] at hf
        have hf' : (if 0 < q then some (⟨sz, q⟩ : SizeEntry) else none) =
          some e := hf
        by_cases hq : 0 < q
        · rw [if_pos hq] at hf'
          cases hf'
          exact hq
        · rw [if_neg hq] at hf'
          exact absurd hf' (by simp)
    · rw [if_neg h1] at he
      obtain ⟨sz, hsz, hf⟩ := List.mem_filterMap.mp he
      have hf' : (if 0 < (qtyVal sz).getD 0 then
          some (⟨sz, (qtyVal sz).getD 0⟩ : SizeEntry) else none) = some e := hf
      by_cases hq : 0 < (qtyVal sz).getD 0
      · rw [if_pos hq] at hf'
        cases hf'
        exact hq
      · rw [if_neg hq] at hf'
        exact absurd hf' (by simp)

theorem processSizes_ne_nil (checked : List Int) (qtyVal : Int → Option Int) :
    processSizes checked qtyVal ≠ [] := by
  unfold processSizes
  intro hc
  by_cases h : (if (checked.filterMap (fun sz =>
      let q := (qtyVal sz).getD 0
      if 0 < q then some (⟨sz, q⟩ : SizeEntry) else none)).isEmpty then
        ([6, 7, 8, 9, 10, 11, 12] : List Int).filterMap (fun sz =>
          match qtyVal sz with
          | some q => if 0 < q then some (⟨sz, q⟩ : SizeEntry) else none
          | none => none)
      else checked.filterMap (fun sz =>
        let q := (qtyVal sz).getD 0
        if 0 < q then some (⟨sz, q⟩ : SizeEntry) else none)).isEmpty
  · rw [if_pos h] at hc
    exact absurd hc (by simp)
  · rw [if_neg h] at hc
    rw [hc] at h
    exact h rfl

theorem sum_quantities_nonneg (l : List SizeEntry)
    (h : ∀ e ∈ l, 0 ≤ e.quantity) : 0 ≤ (l.map (fun e => e.quantity)).sum := by
  induction l with
  | nil => simp
  | cons x xs ih =>
    rw [List.map_cons, List.sum_cons]
    have h1 := h x (by simp)
    have h2 := ih (fun y hy => h y (by simp [hy]))
    omega

theorem sum_quantities_pos (l : List SizeEntry) (hne : l ≠ [])
    (hpos : ∀ e ∈ l, 0 < e.quantity) :
    0 < (l.map (fun e => e.quantity)).sum := by
  cases l with
  | nil => exact absurd rfl hne
  | cons e rest =>
    rw [List.map_cons, List.sum_cons]
    have h1 := hpos e (by simp)
    have h2 := sum_quantities_nonneg rest
      (fun y hy => le_of_lt (hpos y (by simp [hy])))
    omega

/-- C10: a create request with no checked sizes and no positive per-size
quantity field yields exactly the default sizes list [{size 9, quantity
10}]; and every product this operation creates has a non-empty sizes
list whose entries all carry positive quantity, hence positive total
stock. -/
theorem createProduct_sizes_default (pid : Nat) (name description : String)
    (price : ℚ) (discountPrice : Option ℚ) (category brand : String)
    (checked : List Int) (qtyVal : Int → Option Int)
    (colors : List ColorEntry) (featured : Bool) :
    ((checked = [] ∧ ∀ sz : Int, (qtyVal sz).getD 0 ≤ 0) →
      (createProduct pid name description price discountPrice category brand
        checked qtyVal colors featured).sizes = [⟨9, 10⟩]) ∧
    (createProduct pid name description price discountPrice category brand
      checked qtyVal colors featured).sizes ≠ [] ∧
    (∀ e ∈ (createProduct pid name description price discountPrice category
      brand checked qtyVal colors featured).sizes, 0 < e.quantity) ∧
    0 < totalStock (createProduct pid name description price discountPrice
      category brand checked qtyVal colors featured) := by
  refine ⟨?_, processSizes_ne_nil checked qtyVal,
    mem_processSizes_pos checked qtyVal, ?_⟩
  · rintro ⟨hc, hq⟩
    subst hc
    show processSizes [] qtyVal = [⟨9, 10⟩]
    unfold processSizes
    have hfb : ([6, 7, 8, 9, 10, 11, 12] : List Int).filterMap (fun sz =>
        match qtyVal sz with
        | some q => if 0 < q then some (⟨sz, q⟩ : SizeEntry) else none
        | none => none) = [] := by
      apply filterMap_eq_nil_of_none
      intro sz hsz
      cases hv : qtyVal sz with
      | none => rfl
      | some q =>
        have hle : q ≤ 0 := by
          have := hq sz
          rw [hv] at this
          simpa using this
        simp [show ¬(0 < q) by omega]
    simp [hfb]
  · exact sum_quantities_pos _ (processSizes_ne_nil checked qtyVal)
      (mem_processSizes_pos checked qtyVal)

/-- Witness for `createProduct_sizes_default`: a request with no checked
sizes and all quantity fields absent creates sizes [{9, 10}], non-empty,
all-positive, total stock positive. -/
theorem createProduct_sizes_default_witness :
    (createProduct 1 "P" "d" 100 none "c" "b" [] (fun _ => none) [] false).sizes
      = [⟨9, 10⟩] ∧
    (createProduct 1 "P" "d" 100 none "c" "b" [] (fun _ => none) [] false).sizes
      ≠ [] ∧
    (∀ e ∈ (createProduct 1 "P" "d" 100 none "c" "b" [] (fun _ => none) []
      false).sizes, 0 < e.quantity) ∧
    0 < totalStock (createProduct 1 "P" "d" 100 none "c" "b" []
      (fun _ => none) [] false) := by
  obtain ⟨h1, h2, h3, h4⟩ := createProduct_sizes_default 1 "P" "d" 100 none
    "c" "b" [] (fun _ => none) [] false
  exact ⟨h1 ⟨rfl, fun sz => by simp⟩, h2, h3, h4⟩
